import Mathlib

/-!
Verification of `folding_stats_recorder.py` (fah-tools).

The file embeds the two core operations of the recorder as Lean functions:

* `find_specific_user_data` — the Record Locator (`find_specific_user_data`
  in the source): scans the dataset lines after the first two, compares the
  first whitespace token of each line with the target name, and on a match
  builds the four-field named tuple from the whitespace-split line.
* `record_user_data_to_csv` — the History Appender: writes one CSV row,
  prepending the header row when (and only when) the file does not exist.

Python runtime behaviour that the source relies on is embedded explicitly:

* `str.split(None, ...)` splits on runs of whitespace and drops empty
  tokens (`pySplit`); `line.split(None, 1)[0]` on a whitespace-only line
  raises `IndexError` (modelled by `FindError.indexError`).
* calling the 4-field namedtuple constructor with a different number of
  positional arguments raises `TypeError` (`FindError.typeError`, which
  records the number of arguments supplied).
* `click.BadParameter` on a failed scan is `FindError.userNotFound`,
  carrying the message string built in the source (a fixed literal).
* the `csv` module's writer quotes a field iff it contains the delimiter,
  the quote char, or a CR/LF, and terminates each row with CRLF
  (the default `excel` dialect).
* the wall clock (`datetime.datetime.now()`) is an explicit `DateTime`
  argument; `strftime` with the format used in the source is embedded as
  `strftime_mdY_HM`.
* the file system seen through one path is `FileSys`: the content of the
  file at `record_loc` (`none` when `os.path.isfile` is false) plus a flag
  telling whether `open` for writing succeeds (`canOpen`).
-/

set_option maxRecDepth 10000
set_option maxHeartbeats 2000000

/-! ## Definitions: the Record Locator -/

/-- Python whitespace class used by `str.split(None)`: space, tab, newline,
carriage return, vertical tab, form feed. -/
def pyIsSpace (c : Char) : Bool :=
  c = ' ' || c = '\t' || c = '\n' || c = '\x0d' || c = '\x0b' || c = '\x0c'

/-- Worker for `pySplit`: walk the characters, `cur` holds the (reversed)
characters of the token being read. -/
def pySplitAux : List Char → List Char → List String
  | cur, [] => if cur = [] then [] else [String.mk cur.reverse]
  | cur, c :: cs =>
    if pyIsSpace c then
      if cur = [] then pySplitAux [] cs
      else String.mk cur.reverse :: pySplitAux [] cs
    else pySplitAux (c :: cur) cs

/-- Python `s.split()` / `s.split(None)`: split on runs of whitespace,
discarding empty tokens (so leading/trailing whitespace produces nothing).
`s.split(None, 1)[0]`, used by the source, is the head of this list. -/
def pySplit (s : String) : List String :=
  pySplitAux [] s.data

/-- The four-field named tuple `user_data_tuple` built in
`find_specific_user_data`: `['username', 'new_credits', 'sum_workunits',
'team_num']`, every field a string taken verbatim from the dataset line. -/
structure Record where
  username : String
  new_credits : String
  sum_workunits : String
  team_num : String
deriving DecidableEq, Repr

/-- The ways the Record Locator can terminate abnormally:
* `userNotFound msg` — the `click.BadParameter` raised after a full scan,
  with the message string it is given in the source;
* `indexError` — `user_data_row.split(None, 1)[0]` on a line with no
  whitespace token;
* `typeError n` — the namedtuple constructor applied to `n ≠ 4` positional
  arguments. -/
inductive FindError where
  | userNotFound (msg : String)
  | indexError
  | typeError (nargs : Nat)
deriving DecidableEq, Repr

/-- The literal message passed to `click.BadParameter` in the source
(note: it does not mention the requested username). -/
def notFoundMsg : String :=
  "F@H donator username could not be found, please specify an existing name."

/-- `user_data_tuple(*user_data_row.split())`: the namedtuple constructor
applied to the split tokens; any arity other than 4 raises `TypeError`. -/
def tupleOfTokens (toks : List String) : Except FindError Record :=
  match toks with
  | [u, c, s, t] => .ok ⟨u, c, s, t⟩
  | _ => .error (.typeError toks.length)

/-- The scan loop of `find_specific_user_data`, over the lines that remain
after `user_data_rows[2:]`.  For each line: take the first whitespace token
(`split(None, 1)[0]`, `indexError` when there is none); if it equals the
target, build the namedtuple from `user_data_row.split()` (`typeError` when
the arity is not 4); otherwise continue.  An exhausted scan raises
`click.BadParameter` with `notFoundMsg`. -/
def findAux (target : String) : List String → Except FindError Record
  | [] => .error (.userNotFound notFoundMsg)
  | row :: rest =>
    match pySplit row with
    | [] => .error .indexError
    | name :: _ =>
      if name = target then tupleOfTokens (pySplit row)
      else findAux target rest

/-- `find_specific_user_data(user_data_rows, target_name)`: skip the first
two rows (`user_data_rows[2:]`), then scan. -/
def find_specific_user_data (user_data_rows : List String) (target_name : String) :
    Except FindError Record :=
  findAux target_name (user_data_rows.drop 2)

/-- A line the scan passes over without effect: it has a first token and
that token is not the target. -/
def skippable (target : String) (row : String) : Prop :=
  pySplit row ≠ [] ∧ (pySplit row).head? ≠ some target

instance (target row : String) : Decidable (skippable target row) := by
  unfold skippable; infer_instance

/-! ## Definitions: the History Appender -/

/-- A wall-clock reading, the data `datetime.datetime.now()` supplies to the
`'%m/%d/%Y %H:%M'` format string. -/
structure DateTime where
  month : Nat
  day : Nat
  year : Nat
  hour : Nat
  minute : Nat
deriving DecidableEq, Repr

/-- `%m`, `%d`, `%H`, `%M`: the value zero-padded to two digits. -/
def pad2 (n : Nat) : String :=
  if n < 10 then "0" ++ toString n else toString n

/-- `now().strftime('%m/%d/%Y %H:%M')` applied to a `DateTime` (`%Y` is the
decimal year, four digits for any real clock year). -/
def strftime_mdY_HM (dt : DateTime) : String :=
  pad2 dt.month ++ "/" ++ pad2 dt.day ++ "/" ++ toString dt.year ++ " "
    ++ pad2 dt.hour ++ ":" ++ pad2 dt.minute

/-- `csv` excel dialect, QUOTE_MINIMAL: a field is quoted iff it contains
the delimiter `,`, the quote char `"`, or a CR/LF. -/
def fieldNeedsQuote (s : String) : Bool :=
  s.data.any fun c => c = ',' || c = '\x22' || c = '\x0d' || c = '\n'

/-- How the `csv` writer renders one field: doubled quote chars inside a
quoted field, verbatim otherwise. -/
def csvField (s : String) : String :=
  if fieldNeedsQuote s then "\x22" ++ s.replace "\x22" "\x22\x22" ++ "\x22" else s

/-- Join the rendered fields of a row with the `,` delimiter. -/
def joinComma : List String → String
  | [] => ""
  | [f] => f
  | f :: fs => f ++ "," ++ joinComma fs

/-- One row as the `csv` writer emits it: delimited fields plus the excel
dialect's CRLF terminator. -/
def csvRow (fields : List String) : String :=
  joinComma (fields.map csvField) ++ "\x0d\n"

/-- The characters of a data row before the terminator, for the fields of
`user_data_row_dict` in `fieldnames` order (`time` first). -/
def rowString (dt : DateTime) (u : Record) : String :=
  joinComma ([strftime_mdY_HM dt, u.username, u.new_credits,
    u.sum_workunits, u.team_num].map csvField)

/-- The full data row: `writerow(user_data_row_dict)`. -/
def dataLine (dt : DateTime) (u : Record) : String :=
  rowString dt u ++ "\x0d\n"

/-- `writeheader()`: the fieldnames written as a row. -/
def headerLine : String :=
  csvRow ["time", "username", "new_credits", "sum_workunits", "team_num"]

/-- The failure mode of `open(record_loc, ...)` for writing. -/
inductive WriteErr where
  | ioError
deriving DecidableEq, Repr

/-- The file system as seen through `record_loc`: `file` is the content of
the file there (`none` when `os.path.isfile` reports no file), `canOpen`
tells whether `open` for writing succeeds (permissions, parent directory,
disk). -/
structure FileSys where
  file : Option String
  canOpen : Bool
deriving DecidableEq, Repr

/-- `record_user_data_to_csv(user_data, record_loc)`.  The source branches
on `os.path.isfile(record_loc)`:
* file present — `open(record_loc, 'a+b')`, `writerow` appends one data row;
* no file — `open(record_loc, 'w+b')`, `writeheader()` then `writerow`.
If `open` raises `IOError`, the `with` block never runs and the file is
untouched; the pair returned carries the outcome and the file system after
the call. -/
def record_user_data_to_csv (dt : DateTime) (user_data : Record) (fs : FileSys) :
    Except WriteErr Unit × FileSys :=
  match fs.file with
  | some content =>
    if fs.canOpen then
      (.ok (), ⟨some (content ++ dataLine dt user_data), fs.canOpen⟩)
    else (.error .ioError, fs)
  | none =>
    if fs.canOpen then
      (.ok (), ⟨some (headerLine ++ dataLine dt user_data), fs.canOpen⟩)
    else (.error .ioError, fs)

/-- N sequential calls of `record_user_data_to_csv` on the same path, one
`(clock reading, record)` pair per call. -/
def appendAll (calls : List (DateTime × Record)) (fs : FileSys) : FileSys :=
  calls.foldl (fun s p => (record_user_data_to_csv p.1 p.2 s).2) fs

/-- Concatenation of a list of already-terminated lines. -/
def joinAll : List String → String
  | [] => ""
  | s :: rest => s ++ joinAll rest

/-! ## Definitions: re-reading a CSV line and the time-format pattern -/

/-- Comma-splitting of a character list, the re-reading side of the
round-trip property: the chunks between `,` occurrences, in order. -/
def splitCl : List Char → List (List Char)
  | [] => [[]]
  | c :: cs =>
    match splitCl cs with
    | [] => [[c]]
    | r :: rs => if c = ',' then [] :: r :: rs else (c :: r) :: rs

/-- Splitting a CSV line on commas. -/
def splitComma (s : String) : List String :=
  (splitCl s.data).map String.mk

/-- The shape `MM/DD/YYYY HH:MM`: sixteen characters, digits everywhere
except the two slashes, the space and the colon. -/
def timeFormatOK (s : String) : Bool :=
  match s.data with
  | [m1, m2, s1, d1, d2, s2, y1, y2, y3, y4, sp, h1, h2, co, n1, n2] =>
    m1.isDigit && m2.isDigit && (s1 = '/') && d1.isDigit && d2.isDigit && (s2 = '/')
      && y1.isDigit && y2.isDigit && y3.isDigit && y4.isDigit && (sp = ' ')
      && h1.isDigit && h2.isDigit && (co = ':') && n1.isDigit && n2.isDigit
  | _ => false

/-! ## Definitions: worked data from the specification scenarios -/

/-- The worked dataset of the specification scenarios. -/
def demoRows : List String :=
  ["2016-01-14", "name credit sum team", "alice 100 5 0", "bob 200 10 1"]

/-- The record of the specification scenario. -/
def bobRecord : Record := ⟨"bob", "200", "10", "1"⟩

/-- The clock reading of the specification scenario (2016-01-14 12:01). -/
def demoClock : DateTime := ⟨1, 14, 2016, 12, 1⟩

/-- Dataset refuting C1 as stated: the target occurs exactly once as a
first token after the first two lines, on a line of exactly four tokens,
but an empty line sits in front of it. -/
def c1Rows : List String :=
  ["2016-01-14", "name credit sum team", "", "bob 200 10 1"]

/-- Dataset refuting C9 as stated: the (unique) line whose first token is
the target has three tokens, but an empty line precedes it. -/
def c9Rows : List String := ["a", "b", "", "bob 200 10"]

example : find_specific_user_data demoRows "bob" = .ok ⟨"bob", "200", "10", "1"⟩ := rfl
example : find_specific_user_data demoRows "carol" = .error (.userNotFound notFoundMsg) := rfl
example : find_specific_user_data ["a", "b", "", "bob 200 10 1"] "bob" = .error .indexError := rfl
example : find_specific_user_data ["a", "b", "bob 200 10"] "bob" = .error (.typeError 3) := rfl
example : headerLine = "time,username,new_credits,sum_workunits,team_num\x0d\n" := rfl
example : strftime_mdY_HM demoClock = "01/14/2016 12:01" := rfl
example : (record_user_data_to_csv demoClock bobRecord ⟨none, true⟩).2.file
    = some "time,username,new_credits,sum_workunits,team_num\x0d\n01/14/2016 12:01,bob,200,10,1\x0d\n" := rfl
example : (record_user_data_to_csv demoClock bobRecord ⟨some "", true⟩).2.file
    = some "01/14/2016 12:01,bob,200,10,1\x0d\n" := rfl
example : splitComma "01/14/2016 12:01,bob,200,10,1"
    = ["01/14/2016 12:01", "bob", "200", "10", "1"] := rfl
example : timeFormatOK "01/14/2016 12:01" = true := rfl
example : timeFormatOK "1/14/2016 12:01" = false := rfl

/-! ## Behaviour of the scan loop -/

/-- Scanning past skippable lines: the first line whose first token is the
target decides the outcome, via the namedtuple constructor. -/
theorem findAux_found (target : String) (before after : List String) (row : String)
    (hbefore : ∀ r ∈ before, skippable target r)
    (hmatch : (pySplit row).head? = some target) :
    findAux target (before ++ row :: after) = tupleOfTokens (pySplit row) := by
  induction before with
  | nil =>
    cases hps : pySplit row with
    | nil => rw [hps] at hmatch; simp at hmatch
    | cons name tl =>
      rw [hps] at hmatch
      simp only [List.head?] at hmatch
      have hname : name = target := by injection hmatch
      simp [findAux, hps, hname]
  | cons r rs ih =>
    have hr := hbefore r (List.mem_cons_self r rs)
    obtain ⟨hne, hhd⟩ := hr
    cases hps : pySplit r with
    | nil => exact absurd hps hne
    | cons name tl =>
      have hname : name ≠ target := by
        rw [hps] at hhd; simp only [List.head?] at hhd
        intro h; exact hhd (by rw [h])
      simp only [List.cons_append, findAux, hps, if_neg hname]
      exact ih (fun x hx => hbefore x (List.mem_cons_of_mem r hx))

/-- Scanning a list of skippable lines exhausts it: `click.BadParameter`. -/
theorem findAux_notFound (target : String) (rows : List String)
    (hall : ∀ r ∈ rows, skippable target r) :
    findAux target rows = .error (.userNotFound notFoundMsg) := by
  induction rows with
  | nil => rfl
  | cons r rs ih =>
    obtain ⟨hne, hhd⟩ := hall r (List.mem_cons_self r rs)
    cases hps : pySplit r with
    | nil => exact absurd hps hne
    | cons name tl =>
      have hname : name ≠ target := by
        rw [hps] at hhd; simp only [List.head?] at hhd
        intro h; exact hhd (by rw [h])
      simp only [findAux, hps, if_neg hname]
      exact ih (fun x hx => hall x (List.mem_cons_of_mem r hx))

/-- `tupleOfTokens` on any arity other than 4 is the `TypeError`. -/
theorem tupleOfTokens_of_ne4 : ∀ (toks : List String), toks.length ≠ 4 →
    tupleOfTokens toks = .error (.typeError toks.length)
  | [], _ => rfl
  | [_], _ => rfl
  | [_, _], _ => rfl
  | [_, _, _], _ => rfl
  | [_, _, _, _], h => absurd rfl h
  | _ :: _ :: _ :: _ :: _ :: _, _ => rfl

/-- A whitespace-only line reached before any match kills the scan with
`IndexError` (lines before it only need to not match; if one of them is
itself tokenless the outcome is the same `IndexError`). -/
theorem findAux_indexError (target : String) (before after : List String) (row : String)
    (hbefore : ∀ r ∈ before, (pySplit r).head? ≠ some target)
    (hrow : pySplit row = []) :
    findAux target (before ++ row :: after) = .error .indexError := by
  induction before with
  | nil => simp [findAux, hrow]
  | cons r rs ih =>
    have hhd := hbefore r (List.mem_cons_self r rs)
    cases hps : pySplit r with
    | nil => simp [findAux, hps]
    | cons name tl =>
      have hname : name ≠ target := by
        rw [hps] at hhd; simp only [List.head?] at hhd
        intro h; exact hhd (by rw [h])
      simp only [List.cons_append, findAux, hps, if_neg hname]
      exact ih (fun x hx => hbefore x (List.mem_cons_of_mem r hx))

/-! ## Behaviour of the appender -/

/-- One appender step on an existing file appends the data line. -/
theorem record_step_existing (dt : DateTime) (u : Record) (c : String) :
    record_user_data_to_csv dt u ⟨some c, true⟩
      = (.ok (), ⟨some (c ++ dataLine dt u), true⟩) := rfl

/-- Sequential appends onto an existing file concatenate their data lines
in call order after the existing content. -/
theorem appendAll_existing (calls : List (DateTime × Record)) (c : String) :
    appendAll calls ⟨some c, true⟩
      = ⟨some (c ++ joinAll (calls.map fun p => dataLine p.1 p.2)), true⟩ := by
  induction calls generalizing c with
  | nil => simp [appendAll, joinAll]
  | cons p ps ih =>
    have hstep : appendAll (p :: ps) (⟨some c, true⟩ : FileSys)
        = appendAll ps ⟨some (c ++ dataLine p.1 p.2), true⟩ := by
      simp [appendAll, record_user_data_to_csv]
    rw [hstep, ih]
    simp [joinAll, String.append_assoc]

/-! ## Character-level facts about the formatted timestamp -/

theorem mk_data (s : String) : String.mk s.data = s := rfl

theorem splitCl_ne_nil (l : List Char) : splitCl l ≠ [] := by
  cases l with
  | nil => simp [splitCl]
  | cons c cs =>
    simp only [splitCl]
    cases h : splitCl cs with
    | nil => simp
    | cons r rs => by_cases hc : c = ',' <;> simp [hc]

theorem splitCl_no_comma (l : List Char) (h : ∀ c ∈ l, c ≠ ',') :
    splitCl l = [l] := by
  induction l with
  | nil => rfl
  | cons c cs ih =>
    have hc : c ≠ ',' := h c (List.mem_cons_self c cs)
    simp only [splitCl]
    rw [ih (fun x hx => h x (List.mem_cons_of_mem c hx))]
    simp [hc]

theorem splitCl_append (xs ys : List Char) (h : ∀ c ∈ xs, c ≠ ',') :
    splitCl (xs ++ ',' :: ys) = xs :: splitCl ys := by
  induction xs with
  | nil =>
    simp only [List.nil_append, splitCl]
    cases hys : splitCl ys with
    | nil => exact absurd hys (splitCl_ne_nil ys)
    | cons r rs => simp
  | cons x xs ih =>
    have hx : x ≠ ',' := h x (List.mem_cons_self x xs)
    simp only [List.cons_append, splitCl, List.append_eq]
    rw [ih (fun c hc => h c (List.mem_cons_of_mem x hc))]
    simp [hx]

theorem data_comma_append (a rest : String) :
    (a ++ "," ++ rest).data = a.data ++ ',' :: rest.data := by
  have h : ("," : String).data = [','] := rfl
  simp [String.data_append, h]

theorem splitComma_append (a rest : String) (ha : ∀ c ∈ a.data, c ≠ ',') :
    splitComma (a ++ "," ++ rest) = a :: splitComma rest := by
  unfold splitComma
  rw [data_comma_append, splitCl_append a.data rest.data ha]
  simp [mk_data]

theorem splitComma_single (a : String) (ha : ∀ c ∈ a.data, c ≠ ',') :
    splitComma a = [a] := by
  unfold splitComma
  rw [splitCl_no_comma a.data ha]
  simp [mk_data]

/-- `Nat.digitChar` of a value below 10 is a decimal digit character. -/
theorem digitChar_isDigit : ∀ m < 10, (Nat.digitChar m).isDigit = true := by decide

/-- Fuel irrelevance for `Nat.toDigitsCore` once the fuel exceeds the value. -/
theorem toDigitsCore_fuel (f1 : Nat) : ∀ f2 n ds, n < f1 → n < f2 →
    Nat.toDigitsCore 10 f1 n ds = Nat.toDigitsCore 10 f2 n ds := by
  induction f1 with
  | zero => intro f2 n ds h1 _; omega
  | succ f ih =>
    intro f2 n ds h1 h2
    match f2, h2 with
    | g + 1, _ =>
      simp only [Nat.toDigitsCore]
      by_cases hz : n / 10 = 0
      · simp [hz]
      · simp only [hz, if_neg hz]
        exact ih g (n / 10) _ (by omega) (by omega)

/-- The accumulator of `Nat.toDigitsCore` is appended to the digits. -/
theorem toDigitsCore_acc (f : Nat) : ∀ n ds, n < f →
    Nat.toDigitsCore 10 f n ds = Nat.toDigitsCore 10 f n [] ++ ds := by
  induction f with
  | zero => intro n ds h; omega
  | succ f ih =>
    intro n ds h
    simp only [Nat.toDigitsCore]
    by_cases hz : n / 10 = 0
    · simp [hz]
    · simp only [hz, if_neg hz]
      rw [ih (n / 10) (Nat.digitChar (n % 10) :: ds) (by omega),
        ih (n / 10) [Nat.digitChar (n % 10)] (by omega)]
      simp

/-- One-step unfolding of `Nat.toDigits` for values of two or more digits. -/
theorem toDigits_step (n : Nat) (h : 10 ≤ n) :
    Nat.toDigits 10 n = Nat.toDigits 10 (n / 10) ++ [Nat.digitChar (n % 10)] := by
  unfold Nat.toDigits
  have hz : n / 10 ≠ 0 := by omega
  conv => lhs; rw [Nat.toDigitsCore]
  simp only [hz, if_neg hz]
  rw [toDigitsCore_acc n (n / 10) [Nat.digitChar (n % 10)] (by omega),
    toDigitsCore_fuel n (n / 10 + 1) (n / 10) [] (by omega) (by omega)]
  simp

/-- `Nat.toDigits` of a one-digit value. -/
theorem toDigits_single (n : Nat) (h : n < 10) :
    Nat.toDigits 10 n = [Nat.digitChar n] := by
  unfold Nat.toDigits
  have hz : n / 10 = 0 := by omega
  rw [Nat.toDigitsCore]
  simp [hz, Nat.mod_eq_of_lt h]

/-- `toString` on `Nat` is `Nat.repr`, whose characters are
`Nat.toDigits 10`. -/
theorem toString_data_eq (n : Nat) : (toString n).data = Nat.toDigits 10 n := rfl

/-- `pad2` of any value below 100 is two decimal digits. -/
theorem pad2_digits : ∀ n < 100, (pad2 n).data.length = 2
    ∧ ∀ c ∈ (pad2 n).data, c.isDigit = true := by
  intro n hn
  by_cases h : n < 10
  · have hd : (pad2 n).data = ['0', Nat.digitChar n] := by
      unfold pad2
      rw [if_pos h, String.data_append, toString_data_eq, toDigits_single n h]
      rfl
    rw [hd]
    refine ⟨rfl, ?_⟩
    intro c hc
    simp only [List.mem_cons, List.not_mem_nil, or_false] at hc
    rcases hc with rfl | rfl
    · decide
    · exact digitChar_isDigit n (by omega)
  · have hd : (pad2 n).data = [Nat.digitChar (n / 10), Nat.digitChar (n % 10)] := by
      unfold pad2
      rw [if_neg h, toString_data_eq, toDigits_step n (by omega),
        toDigits_single (n / 10) (by omega)]
      rfl
    rw [hd]
    refine ⟨rfl, ?_⟩
    intro c hc
    simp only [List.mem_cons, List.not_mem_nil, or_false] at hc
    rcases hc with rfl | rfl
    · exact digitChar_isDigit (n / 10) (by omega)
    · exact digitChar_isDigit (n % 10) (by omega)

/-- The decimal form of a four-digit year is four decimal digits. -/
theorem year_digits (y : Nat) (h1 : 1000 ≤ y) (h2 : y ≤ 9999) :
    (toString y).data.length = 4 ∧ ∀ c ∈ (toString y).data, c.isDigit = true := by
  have e2 : y / 10 / 10 = y / 100 := by omega
  have e3 : y / 100 / 10 = y / 1000 := by omega
  have hd : (toString y).data
      = [Nat.digitChar (y / 1000), Nat.digitChar (y / 100 % 10),
          Nat.digitChar (y / 10 % 10), Nat.digitChar (y % 10)] := by
    rw [toString_data_eq, toDigits_step y (by omega), toDigits_step (y / 10) (by omega),
      e2, toDigits_step (y / 100) (by omega), e3, toDigits_single (y / 1000) (by omega)]
    simp
  rw [hd]
  refine ⟨rfl, ?_⟩
  intro c hc
  simp only [List.mem_cons, List.not_mem_nil, or_false] at hc
  rcases hc with rfl | rfl | rfl | rfl
  · exact digitChar_isDigit (y / 1000) (by omega)
  · exact digitChar_isDigit (y / 100 % 10) (by omega)
  · exact digitChar_isDigit (y / 10 % 10) (by omega)
  · exact digitChar_isDigit (y % 10) (by omega)

theorem len2_pair {l : List Char} (h : l.length = 2) : ∃ a b, l = [a, b] := by
  match l with
  | [a, b] => exact ⟨a, b, rfl⟩
  | [] | [_] | _ :: _ :: _ :: _ => simp at h

theorem len4_quad {l : List Char} (h : l.length = 4) :
    ∃ a b c d, l = [a, b, c, d] := by
  match l with
  | [a, b, c, d] => exact ⟨a, b, c, d, rfl⟩
  | [] | [_] | [_, _] | [_, _, _] | _ :: _ :: _ :: _ :: _ :: _ => simp at h

/-- The characters of the formatted timestamp, as the concatenation of its
five numeric groups and four separators. -/
theorem strftime_data (dt : DateTime) :
    (strftime_mdY_HM dt).data
      = (pad2 dt.month).data ++ '/' :: ((pad2 dt.day).data
          ++ '/' :: ((toString dt.year).data
          ++ ' ' :: ((pad2 dt.hour).data ++ ':' :: (pad2 dt.minute).data))) := by
  have h1 : ("/" : String).data = ['/'] := rfl
  have h2 : (" " : String).data = [' '] := rfl
  have h3 : (":" : String).data = [':'] := rfl
  simp [strftime_mdY_HM, String.data_append, h1, h2, h3]

theorem digit_ne_comma (c : Char) (h : c.isDigit = true) : c ≠ ',' := by
  intro hc
  rw [hc] at h
  exact absurd h (by decide)

theorem digit_bad_false (c : Char) (h : c.isDigit = true) :
    (c = ',' || c = '\x22' || c = '\x0d' || c = '\n' : Bool) = false := by
  by_cases h1 : c = ','
  · rw [h1] at h; exact absurd h (by decide)
  by_cases h2 : c = '\x22'
  · rw [h2] at h; exact absurd h (by decide)
  by_cases h3 : c = '\x0d'
  · rw [h3] at h; exact absurd h (by decide)
  by_cases h4 : c = '\n'
  · rw [h4] at h; exact absurd h (by decide)
  simp [h1, h2, h3, h4]

/-- No comma occurs in the formatted timestamp of an in-range clock. -/
theorem strftime_no_comma (dt : DateTime)
    (hm : dt.month < 100) (hd : dt.day < 100)
    (hy1 : 1000 ≤ dt.year) (hy2 : dt.year ≤ 9999)
    (hh : dt.hour < 100) (hn : dt.minute < 100) :
    ∀ c ∈ (strftime_mdY_HM dt).data, c ≠ ',' := by
  obtain ⟨-, hdm⟩ := pad2_digits dt.month hm
  obtain ⟨-, hdd⟩ := pad2_digits dt.day hd
  obtain ⟨-, hdy⟩ := year_digits dt.year hy1 hy2
  obtain ⟨-, hdh⟩ := pad2_digits dt.hour hh
  obtain ⟨-, hdn⟩ := pad2_digits dt.minute hn
  rw [strftime_data dt]
  simp only [List.forall_mem_append, List.forall_mem_cons]
  refine ⟨fun c hc => digit_ne_comma c (hdm c hc), by decide,
    fun c hc => digit_ne_comma c (hdd c hc), by decide,
    fun c hc => digit_ne_comma c (hdy c hc), by decide,
    fun c hc => digit_ne_comma c (hdh c hc), by decide,
    fun c hc => digit_ne_comma c (hdn c hc)⟩

/-- The formatted timestamp of an in-range clock needs no CSV quoting. -/
theorem strftime_no_quote (dt : DateTime)
    (hm : dt.month < 100) (hd : dt.day < 100)
    (hy1 : 1000 ≤ dt.year) (hy2 : dt.year ≤ 9999)
    (hh : dt.hour < 100) (hn : dt.minute < 100) :
    fieldNeedsQuote (strftime_mdY_HM dt) = false := by
  obtain ⟨-, hdm⟩ := pad2_digits dt.month hm
  obtain ⟨-, hdd⟩ := pad2_digits dt.day hd
  obtain ⟨-, hdy⟩ := year_digits dt.year hy1 hy2
  obtain ⟨-, hdh⟩ := pad2_digits dt.hour hh
  obtain ⟨-, hdn⟩ := pad2_digits dt.minute hn
  unfold fieldNeedsQuote
  rw [List.any_eq_false]
  rw [strftime_data dt]
  simp only [List.forall_mem_append, List.forall_mem_cons]
  refine ⟨fun c hc => by simp [digit_bad_false c (hdm c hc)], by decide,
    fun c hc => by simp [digit_bad_false c (hdd c hc)], by decide,
    fun c hc => by simp [digit_bad_false c (hdy c hc)], by decide,
    fun c hc => by simp [digit_bad_false c (hdh c hc)], by decide,
    fun c hc => by simp [digit_bad_false c (hdn c hc)]⟩

/-- The formatted timestamp of an in-range clock matches `MM/DD/YYYY HH:MM`. -/
theorem strftime_format_ok (dt : DateTime)
    (hm : dt.month < 100) (hd : dt.day < 100)
    (hy1 : 1000 ≤ dt.year) (hy2 : dt.year ≤ 9999)
    (hh : dt.hour < 100) (hn : dt.minute < 100) :
    timeFormatOK (strftime_mdY_HM dt) = true := by
  obtain ⟨hlm, hdm⟩ := pad2_digits dt.month hm
  obtain ⟨hld, hdd⟩ := pad2_digits dt.day hd
  obtain ⟨hly, hdy⟩ := year_digits dt.year hy1 hy2
  obtain ⟨hlh, hdh⟩ := pad2_digits dt.hour hh
  obtain ⟨hln, hdn⟩ := pad2_digits dt.minute hn
  obtain ⟨a1, a2, hma⟩ := len2_pair hlm
  obtain ⟨b1, b2, hmb⟩ := len2_pair hld
  obtain ⟨y1, y2, y3, y4, hmy⟩ := len4_quad hly
  obtain ⟨e1, e2, hme⟩ := len2_pair hlh
  obtain ⟨f1, f2, hmf⟩ := len2_pair hln
  rw [hma] at hdm; rw [hmb] at hdd; rw [hmy] at hdy
  rw [hme] at hdh; rw [hmf] at hdn
  have htd := strftime_data dt
  rw [hma, hmb, hmy, hme, hmf] at htd
  unfold timeFormatOK
  rw [htd]
  simp only [List.cons_append, List.nil_append]
  simp [hdm a1 (by simp), hdm a2 (by simp), hdd b1 (by simp), hdd b2 (by simp),
    hdy y1 (by simp), hdy y2 (by simp), hdy y3 (by simp), hdy y4 (by simp),
    hdh e1 (by simp), hdh e2 (by simp), hdn f1 (by simp), hdn f2 (by simp)]

theorem csvField_id (s : String) (h : fieldNeedsQuote s = false) :
    csvField s = s := by
  simp [csvField, h]

theorem no_quote_no_comma (s : String) (h : fieldNeedsQuote s = false) :
    ∀ c ∈ s.data, c ≠ ',' := by
  unfold fieldNeedsQuote at h
  rw [List.any_eq_false] at h
  intro c hc hcc
  have hb := h c hc
  rw [hcc] at hb
  exact hb (by decide)

/-! ## Claims about the Record Locator -/

/-- C1 (counterexample): on `c1Rows` the target `"bob"` occurs exactly once
as a first token after the first two lines and its line has exactly four
tokens, yet `find_specific_user_data` raises `IndexError` on the empty line
scanned first instead of returning the Record. -/
theorem c1_counterexample :
    ((c1Rows.drop 2).filter (fun r => (pySplit r).head? == some "bob"))
      = ["bob 200 10 1"]
    ∧ pySplit "bob 200 10 1" = ["bob", "200", "10", "1"]
    ∧ find_specific_user_data c1Rows "bob" = .error .indexError :=
  ⟨rfl, rfl, rfl⟩

/-- C1 (amended): if the lines after the first two decompose as
`before ++ row :: after` where every line of `before` has a first token
different from the target, no line of `after` has the target as first
token, and `row` splits into exactly the four tokens
`[target, c2, c3, c4]`, then `find_specific_user_data` returns the Record
with exactly those four fields in order. -/
theorem c1_find_returns_matching_record (rows : List String) (target : String)
    (before after : List String) (row : String) (c2 c3 c4 : String)
    (hdecomp : rows.drop 2 = before ++ row :: after)
    (hbefore : ∀ r ∈ before, skippable target r)
    (_hafter : ∀ r ∈ after, (pySplit r).head? ≠ some target)
    (hrow : pySplit row = [target, c2, c3, c4]) :
    find_specific_user_data rows target
      = .ok ⟨target, c2, c3, c4⟩ := by
  unfold find_specific_user_data
  rw [hdecomp, findAux_found target before after row hbefore (by rw [hrow]; rfl),
    hrow]
  rfl

/-- C1 witness: the specification scenario, target `"bob"` in `demoRows`. -/
theorem c1_witness :
    find_specific_user_data demoRows "bob" = .ok ⟨"bob", "200", "10", "1"⟩ :=
  c1_find_returns_matching_record demoRows "bob" ["alice 100 5 0"] []
    "bob 200 10 1" "200" "10" "1" rfl (by decide) (by decide) (by decide)

/-- C3 (counterexample): on the scenario dataset with absent target
`"carol"`, the scan does fail with the `UserNotFound` error
(`click.BadParameter`), but its message is the fixed literal `notFoundMsg`,
which does not contain the requested identifier. -/
theorem c3_counterexample :
    find_specific_user_data demoRows "carol" = .error (.userNotFound notFoundMsg)
    ∧ ¬ ("carol".data <:+: notFoundMsg.data) :=
  ⟨rfl, by decide⟩

/-- C3 (amended): if every line after the first two has at least one token
and none has the target as its first token, `find_specific_user_data`
fails with the `UserNotFound` error carrying the fixed message
`notFoundMsg` (the same message whatever the identifier). -/
theorem c3_not_found (rows : List String) (target : String)
    (hall : ∀ r ∈ rows.drop 2, skippable target r) :
    find_specific_user_data rows target = .error (.userNotFound notFoundMsg) :=
  findAux_notFound target (rows.drop 2) hall

/-- C3 witness: the scenario dataset with target `"carol"`. -/
theorem c3_witness :
    find_specific_user_data demoRows "carol"
      = .error (.userNotFound notFoundMsg) :=
  c3_not_found demoRows "carol" (by decide)

/-- C6: the result of `find_specific_user_data` depends only on the lines
from index 2 onward — two datasets agreeing there give the same result for
every target, whatever their first two lines hold. -/
theorem c6_first_two_lines_never_inspected (rows1 rows2 : List String)
    (target : String) (h : rows1.drop 2 = rows2.drop 2) :
    find_specific_user_data rows1 target = find_specific_user_data rows2 target := by
  unfold find_specific_user_data
  rw [h]

/-- C6 witness: a dataset whose first two lines both start with the target
token gives the same result as the scenario dataset. -/
theorem c6_witness :
    find_specific_user_data
      ["bob 999 99 9", "bob 888 88 8", "alice 100 5 0", "bob 200 10 1"] "bob"
    = find_specific_user_data demoRows "bob" :=
  c6_first_two_lines_never_inspected
    ["bob 999 99 9", "bob 888 88 8", "alice 100 5 0", "bob 200 10 1"]
    demoRows "bob" rfl

/-- C9 (counterexample): on `c9Rows` the first line after the first two
whose first token is `"bob"` splits into 3 ≠ 4 tokens, yet the scan fails
with `IndexError` on the empty line it reaches first, not with the
`TypeError` the claim requires. -/
theorem c9_counterexample :
    ((c9Rows.drop 2).filter (fun r => (pySplit r).head? == some "bob"))
      = ["bob 200 10"]
    ∧ (pySplit "bob 200 10").length = 3
    ∧ find_specific_user_data c9Rows "bob" = .error .indexError :=
  ⟨rfl, rfl, rfl⟩

/-- C9 (amended): if the lines after the first two decompose as
`before ++ row :: after`, every line of `before` has a first token
different from the target, and `row` has the target as first token but
does not split into exactly four tokens, the scan fails with the
`TypeError` of the namedtuple constructor (carrying the arity), not with a
Record and not with `UserNotFound`. -/
theorem c9_wrong_arity_type_error (rows : List String) (target : String)
    (before after : List String) (row : String)
    (hdecomp : rows.drop 2 = before ++ row :: after)
    (hbefore : ∀ r ∈ before, skippable target r)
    (hmatch : (pySplit row).head? = some target)
    (hlen : (pySplit row).length ≠ 4) :
    find_specific_user_data rows target
      = .error (.typeError (pySplit row).length) := by
  unfold find_specific_user_data
  rw [hdecomp, findAux_found target before after row hbefore hmatch]
  exact tupleOfTokens_of_ne4 _ hlen

/-- C9 witness: a three-token line for the target with nothing before it. -/
theorem c9_witness :
    find_specific_user_data ["a", "b", "bob 200 10"] "bob"
      = .error (.typeError (pySplit "bob 200 10").length) :=
  c9_wrong_arity_type_error ["a", "b", "bob 200 10"] "bob" [] [] "bob 200 10"
    rfl (by decide) (by decide) (by decide)

/-- C10: a tokenless (empty or all-whitespace) line after the first two,
with no matching line anywhere before it, makes the scan fail with
`IndexError` instead of skipping the line. -/
theorem c10_blank_line_index_error (rows : List String) (target : String)
    (before after : List String) (row : String)
    (hdecomp : rows.drop 2 = before ++ row :: after)
    (hbefore : ∀ r ∈ before, (pySplit r).head? ≠ some target)
    (hrow : pySplit row = []) :
    find_specific_user_data rows target = .error .indexError := by
  unfold find_specific_user_data
  rw [hdecomp]
  exact findAux_indexError target before after row hbefore hrow

/-- C10 witness: a whitespace-only line in front of the target's line. -/
theorem c10_witness :
    find_specific_user_data ["d", "h", "   ", "bob 200 10 1"] "bob"
      = .error .indexError :=
  c10_blank_line_index_error ["d", "h", "   ", "bob 200 10 1"] "bob" []
    ["bob 200 10 1"] "   " rfl (by decide) (by decide)

/-! ## Claims about the History Appender -/

/-- C2 (counterexample): appending the scenario record to an existing but
empty file yields only the data row — the header is not emitted, contrary
to the claim's "exists but is empty" case. -/
theorem c2_counterexample :
    (record_user_data_to_csv demoClock bobRecord ⟨some "", true⟩).2.file
      = some "01/14/2016 12:01,bob,200,10,1\x0d\n"
    ∧ (record_user_data_to_csv demoClock bobRecord ⟨some "", true⟩).2.file
      ≠ some (headerLine ++ dataLine demoClock bobRecord) :=
  ⟨rfl, by decide⟩

/-- C2 (amended): whenever the target file does not exist (the source's
`os.path.isfile` test — emptiness of an existing file is never checked),
the call opens it for writing and emits the header row followed by exactly
one data row. -/
theorem c2_new_file_header_then_row (dt : DateTime) (u : Record) (fs : FileSys)
    (hnofile : fs.file = none) (hopen : fs.canOpen = true) :
    (record_user_data_to_csv dt u fs).2.file = some (headerLine ++ dataLine dt u)
    ∧ (record_user_data_to_csv dt u fs).1 = .ok () := by
  obtain ⟨f, o⟩ := fs
  cases hnofile
  cases hopen
  exact ⟨rfl, rfl⟩

/-- C2 witness: the scenario append onto a non-existent file. -/
theorem c2_witness :
    (record_user_data_to_csv demoClock bobRecord ⟨none, true⟩).2.file
      = some (headerLine ++ dataLine demoClock bobRecord)
    ∧ (record_user_data_to_csv demoClock bobRecord ⟨none, true⟩).1 = .ok () :=
  c2_new_file_header_then_row demoClock bobRecord ⟨none, true⟩ rfl rfl

/-- C4: starting from a non-existent path, N ≥ 1 sequential successful
calls leave the file holding exactly the header line followed by the N
data lines of the calls, in call order. -/
theorem c4_n_appends_header_then_rows (calls : List (DateTime × Record))
    (h : calls ≠ []) :
    (appendAll calls ⟨none, true⟩).file
      = some (headerLine ++ joinAll (calls.map fun p => dataLine p.1 p.2)) := by
  match calls, h with
  | p :: ps, _ =>
    have hstep : appendAll (p :: ps) (⟨none, true⟩ : FileSys)
        = appendAll ps ⟨some (headerLine ++ dataLine p.1 p.2), true⟩ := by
      simp [appendAll, record_user_data_to_csv]
    rw [hstep, appendAll_existing]
    simp [joinAll, String.append_assoc]

/-- C4 witness: two calls on a fresh path — header, then the two rows in
call order. -/
theorem c4_witness :
    (appendAll [(demoClock, bobRecord), (⟨1, 14, 2016, 13, 1⟩, bobRecord)]
        ⟨none, true⟩).file
      = some (headerLine
          ++ joinAll ([(demoClock, bobRecord), (⟨1, 14, 2016, 13, 1⟩, bobRecord)].map
                fun p => dataLine p.1 p.2)) :=
  c4_n_appends_header_then_rows
    [(demoClock, bobRecord), (⟨1, 14, 2016, 13, 1⟩, bobRecord)] (by decide)

/-- C5: a successful call on an existing, non-empty file leaves the prior
content byte-for-byte unchanged as a prefix and appends exactly the one
data line, with no header re-emission. -/
theorem c5_append_preserves_existing (dt : DateTime) (u : Record) (fs : FileSys)
    (c : String) (hfile : fs.file = some c) (_hne : c ≠ "")
    (hopen : fs.canOpen = true) :
    (record_user_data_to_csv dt u fs).2.file = some (c ++ dataLine dt u)
    ∧ (record_user_data_to_csv dt u fs).1 = .ok () := by
  obtain ⟨f, o⟩ := fs
  cases hfile
  cases hopen
  exact ⟨rfl, rfl⟩

/-- C5 witness: appending to a file already holding a header and one row. -/
theorem c5_witness :
    (record_user_data_to_csv demoClock bobRecord
        ⟨some "time,username,new_credits,sum_workunits,team_num\x0d\nx\x0d\n", true⟩).2.file
      = some ("time,username,new_credits,sum_workunits,team_num\x0d\nx\x0d\n"
          ++ dataLine demoClock bobRecord)
    ∧ (record_user_data_to_csv demoClock bobRecord
        ⟨some "time,username,new_credits,sum_workunits,team_num\x0d\nx\x0d\n", true⟩).1
      = .ok () :=
  c5_append_preserves_existing demoClock bobRecord
    ⟨some "time,username,new_credits,sum_workunits,team_num\x0d\nx\x0d\n", true⟩
    "time,username,new_credits,sum_workunits,team_num\x0d\nx\x0d\n" rfl
    (by decide) rfl

/-- C7: for an in-range clock reading and a record none of whose fields
needs CSV quoting, a successful write appends exactly the data line
`rowString ++ CRLF`; splitting that data line on commas gives back the
formatted time followed by the four original field values unchanged, and
the time matches the pattern `MM/DD/YYYY HH:MM`. -/
theorem c7_round_trip (dt : DateTime) (u : Record) (prior : String)
    (hm1 : 1 ≤ dt.month) (hm2 : dt.month ≤ 12)
    (hd1 : 1 ≤ dt.day) (hd2 : dt.day ≤ 31)
    (hy1 : 1000 ≤ dt.year) (hy2 : dt.year ≤ 9999)
    (hh : dt.hour < 24) (hn : dt.minute < 60)
    (hqu : fieldNeedsQuote u.username = false)
    (hqc : fieldNeedsQuote u.new_credits = false)
    (hqs : fieldNeedsQuote u.sum_workunits = false)
    (hqt : fieldNeedsQuote u.team_num = false) :
    (record_user_data_to_csv dt u ⟨some prior, true⟩).2.file
      = some (prior ++ (rowString dt u ++ "\x0d\n"))
    ∧ splitComma (rowString dt u)
      = [strftime_mdY_HM dt, u.username, u.new_credits, u.sum_workunits, u.team_num]
    ∧ timeFormatOK (strftime_mdY_HM dt) = true := by
  have hts := strftime_no_quote dt (by omega) (by omega) hy1 hy2 (by omega) (by omega)
  have hr : rowString dt u
      = joinComma [strftime_mdY_HM dt, u.username, u.new_credits,
          u.sum_workunits, u.team_num] := by
    unfold rowString
    simp [List.map, csvField_id (strftime_mdY_HM dt) hts, csvField_id u.username hqu,
      csvField_id u.new_credits hqc, csvField_id u.sum_workunits hqs,
      csvField_id u.team_num hqt]
  refine ⟨rfl, ?_,
    strftime_format_ok dt (by omega) (by omega) hy1 hy2 (by omega) (by omega)⟩
  rw [hr]
  simp only [joinComma]
  rw [splitComma_append _ _
      (strftime_no_comma dt (by omega) (by omega) hy1 hy2 (by omega) (by omega)),
    splitComma_append _ _ (no_quote_no_comma _ hqu),
    splitComma_append _ _ (no_quote_no_comma _ hqc),
    splitComma_append _ _ (no_quote_no_comma _ hqs),
    splitComma_single _ (no_quote_no_comma _ hqt)]

/-- C7 witness: the scenario record and clock, appended after a header. -/
theorem c7_witness :
    (record_user_data_to_csv demoClock bobRecord ⟨some headerLine, true⟩).2.file
      = some (headerLine ++ (rowString demoClock bobRecord ++ "\x0d\n"))
    ∧ splitComma (rowString demoClock bobRecord)
      = [strftime_mdY_HM demoClock, bobRecord.username, bobRecord.new_credits,
          bobRecord.sum_workunits, bobRecord.team_num]
    ∧ timeFormatOK (strftime_mdY_HM demoClock) = true :=
  c7_round_trip demoClock bobRecord headerLine (by decide) (by decide) (by decide)
    (by decide) (by decide) (by decide) (by decide) (by decide) (by decide)
    (by decide) (by decide) (by decide)

/-- C8: every call is atomic — it either fully succeeds, leaving the prior
content (or the fresh header) followed by exactly one new data row, or it
fails with the `IOError` of `open` and the file system is untouched.
(`Option.getD headerLine` reads: the prior content when the file exists,
the fresh header when it does not.) -/
theorem c8_append_atomic (dt : DateTime) (u : Record) (fs : FileSys) :
    ((record_user_data_to_csv dt u fs).1 = .ok ()
      ∧ (record_user_data_to_csv dt u fs).2.file
          = some ((fs.file.getD headerLine) ++ dataLine dt u))
    ∨ ((record_user_data_to_csv dt u fs).1 = .error .ioError
      ∧ (record_user_data_to_csv dt u fs).2 = fs) := by
  obtain ⟨f, o⟩ := fs
  cases f <;> cases o <;> simp [record_user_data_to_csv]
